import Mathlib

/-!
Verification of the Finternet SDK's ledger activity reconstruction and
holdings discovery logic, as implemented in `src/ledger.rs`, `src/asset.rs`
and `src/payment.rs`.  The remote query layer (Solana RPC) and external
library crates (base64, mpl-token-metadata, spl-token unpack, associated
token address derivation) are modelled as explicit environment parameters;
everything the repository itself computes is translated directly.
-/

namespace Finternet

/-- The base58 alphabet used by the bs58 crate (Bitcoin alphabet), which
backs `Pubkey::from_str` and `Signature::from_str`. -/
def base58Alphabet : List Char :=
  [ '1', '2', '3', '4', '5', '6', '7', '8', '9',
    'A', 'B', 'C', 'D', 'E', 'F', 'G', 'H', 'J', 'K', 'L', 'M', 'N',
    'P', 'Q', 'R', 'S', 'T', 'U', 'V', 'W', 'X', 'Y', 'Z',
    'a', 'b', 'c', 'd', 'e', 'f', 'g', 'h', 'i', 'j', 'k', 'm', 'n',
    'o', 'p', 'q', 'r', 's', 't', 'u', 'v', 'w', 'x', 'y', 'z' ]

/-- Value of one base58 digit, `none` for a character outside the alphabet. -/
def base58Digit (c : Char) : Option Nat :=
  base58Alphabet.indexOf? c

/-- Big-endian base-256 digits of `n`, accumulator-passing with explicit
fuel so the definition is structurally recursive (one byte is emitted per
step, so any fuel bound above the byte count is exact). -/
def natBytesGo : Nat → Nat → List Nat → List Nat
  | 0, _, acc => acc
  | f + 1, n, acc => if n = 0 then acc else natBytesGo f (n / 256) (n % 256 :: acc)

/-- Base58 decoding as performed by the bs58 crate: fails exactly when some
character is outside the alphabet; otherwise interprets the string as a
base-58 number, rendered as big-endian bytes with one leading zero byte per
leading character one.  (`cs.length` bounds the byte count since every
character contributes fewer than 8 bits.) -/
def base58Decode (s : String) : Option (List Nat) :=
  let cs := s.data
  if cs.all (fun c => (base58Digit c).isSome) then
    let n := cs.foldl (fun acc c => acc * 58 + (base58Digit c).getD 0) 0
    let leading := (cs.takeWhile (fun c => c = '1')).length
    some (List.replicate leading 0 ++ natBytesGo cs.length n [])
  else none

/-- A Solana public key: 32 bytes.  (The length invariant is enforced by
`parsePubkey`; raw byte lists keep the model executable.) -/
structure Pubkey where
  bytes : List Nat
deriving DecidableEq

/-- `Pubkey::from_str`: base58-decode and require exactly 32 bytes. -/
def parsePubkey (s : String) : Option Pubkey :=
  match base58Decode s with
  | some bs => if bs.length = 32 then some ⟨bs⟩ else none
  | none => none

/-- `Pubkey::default()`: the all-zero key. -/
def pubkeyDefault : Pubkey := ⟨List.replicate 32 0⟩

/-- A transaction signature: 64 bytes. -/
structure Signature where
  bytes : List Nat
deriving DecidableEq

/-- `Signature::from_str`: base58-decode and require exactly 64 bytes. -/
def parseSignature (s : String) : Option Signature :=
  match base58Decode s with
  | some bs => if bs.length = 64 then some ⟨bs⟩ else none
  | none => none

/-- Rust `str::parse::<u64>()`: optional leading plus sign, at least one
ASCII digit, no other characters, and the value must fit in 64 bits. -/
def parseU64 (s : String) : Option Nat :=
  let t := match s.data with
    | '+' :: rest => rest
    | cs => cs
  match t with
  | [] => none
  | _ =>
    if t.all Char.isDigit then
      let n := t.foldl (fun acc c => acc * 10 + (c.toNat - 48)) 0
      if n < 2 ^ 64 then some n else none
    else none

/-- Rust `i64 as u64` cast (two's-complement wrap). -/
def intToU64 (i : Int) : Nat := (i % (2 ^ 64 : Int)).toNat

/-- `UiTokenAmount`: only the base-unit `amount` string is consumed by the
repository. -/
structure UiTokenAmount where
  amount : String
deriving DecidableEq

/-- One entry of `pre_token_balances` / `post_token_balances`. -/
structure TokenBalance where
  account_index : Nat
  mint : String
  ui_token_amount : UiTokenAmount
deriving DecidableEq

/-- Transaction metadata: the two balance snapshots.  `OptionSerializer`
is modelled as `Option`, since the source only distinguishes `Some` from
everything else. -/
structure TxMeta where
  pre_token_balances : Option (List TokenBalance)
  post_token_balances : Option (List TokenBalance)
deriving DecidableEq

/-- One instruction of a fetched transaction (program id as text plus raw
data), enough to express whether a memo-program instruction is present. -/
structure TxInstruction where
  program_id : String
  data : List Nat
deriving DecidableEq

/-- A fetched transaction (`EncodedConfirmedTransactionWithStatusMeta`):
metadata, block time, and the instruction list of the inner message. -/
structure EncodedTx where
  meta : Option TxMeta
  block_time : Option Int
  instructions : List TxInstruction
deriving DecidableEq

/-- One element of the `get_signatures_for_address` response. -/
structure SigInfo where
  signature : String
  block_time : Option Int
deriving DecidableEq

/-- The repository's `TransactionRecord` (lib.rs). -/
structure TransactionRecord where
  signature : Signature
  from_addr : Pubkey
  to_addr : Pubkey
  amount : Nat
  token_mint : Pubkey
  timestamp : Nat
  memo : Option String
deriving DecidableEq

/-- `extract_memo_from_transaction` (ledger.rs): the source is a stub that
ignores the transaction and always returns `None`. -/
def extract_memo_from_transaction ( _tx : EncodedTx) : Option String :=
  none

/-- Parsed balance of one snapshot entry:
`ui_token_amount.amount.parse::<u64>().unwrap_or(0)`. -/
def parsedAmount (b : TokenBalance) : Nat :=
  (parseU64 b.ui_token_amount.amount).getD 0

def mintParseErr : String := "failed to parse mint pubkey"

def sigParseErr : String := "failed to parse signature"

/-- The inner pair loop of `get_transaction_history` (ledger.rs lines
60-94): walk the positionally zipped snapshots; skip a pair whose account
indices differ or whose parsed amounts coincide; at the first pair whose
parsed amounts differ, parse the pre-entry's mint with `?` (an unparseable
mint aborts with an error) and stop, returning the mint together with the
absolute balance difference. -/
def firstTransfer : List (TokenBalance × TokenBalance) →
    Except String (Option (Pubkey × Nat))
  | [] => Except.ok none
  | (p, q) :: rest =>
    if p.account_index = q.account_index then
      let preAmount := parsedAmount p
      let postAmount := parsedAmount q
      if preAmount ≠ postAmount then
        match parsePubkey p.mint with
        | some m =>
          Except.ok (some (m, if postAmount > preAmount
            then postAmount - preAmount else preAmount - postAmount))
        | none => Except.error mintParseErr
      else firstTransfer rest
    else firstTransfer rest

/-- Per-transaction record reconstruction inside `get_transaction_history`:
absent metadata or an absent snapshot yields no record; otherwise the first
balance-changing pair (if any) is turned into a `TransactionRecord` whose
`from` and `to` are both the queried owner, whose timestamp is the
signature's block time (0 when absent), and whose memo comes from the memo
extraction stub. -/
def processTransaction (owner : Pubkey) (sig : Signature) (si : SigInfo)
    (tx : EncodedTx) : Except String (Option TransactionRecord) :=
  match tx.meta with
  | none => Except.ok none
  | some meta =>
    match meta.pre_token_balances, meta.post_token_balances with
    | some pre, some post =>
      match firstTransfer (pre.zip post) with
      | Except.error e => Except.error e
      | Except.ok none => Except.ok none
      | Except.ok (some (m, amount)) =>
        Except.ok (some
          { signature := sig
            from_addr := owner
            to_addr := owner
            amount := amount
            token_mint := m
            timestamp := intToU64 (si.block_time.getD 0)
            memo := extract_memo_from_transaction tx })
    | _, _ => Except.ok none

/-- The query-layer operations consumed by the history scan. -/
structure RpcEnv where
  getSignaturesForAddress : Pubkey → Nat → Except String (List SigInfo)
  getTransaction : Signature → Except String EncodedTx

/-- The per-signature loop of `get_transaction_history`: parse the
signature string with `?` (a malformed string aborts the whole call), skip
the signature when the transaction fetch fails, otherwise reconstruct and
collect at most one record, propagating a mint-parse error. -/
def historyLoop (env : RpcEnv) (owner : Pubkey) :
    List SigInfo → Except String (List TransactionRecord)
  | [] => Except.ok []
  | si :: rest =>
    match parseSignature si.signature with
    | none => Except.error sigParseErr
    | some sig =>
      match env.getTransaction sig with
      | Except.error _ => historyLoop env owner rest
      | Except.ok tx =>
        match processTransaction owner sig si tx with
        | Except.error e => Except.error e
        | Except.ok none => historyLoop env owner rest
        | Except.ok (some r) =>
          match historyLoop env owner rest with
          | Except.error e => Except.error e
          | Except.ok rs => Except.ok (r :: rs)

/-- `get_transaction_history` (ledger.rs): default the limit to 10, fetch
the signature list (a failure here aborts), and run the per-signature loop
over the first `limit` signatures. -/
def get_transaction_history (env : RpcEnv) (owner : Pubkey)
    (limit : Option Nat) : Except String (List TransactionRecord) :=
  let lim := limit.getD 10
  match env.getSignaturesForAddress owner lim with
  | Except.error e => Except.error e
  | Except.ok sigs => historyLoop env owner (sigs.take lim)

/-- The account-data encodings of `UiAccountEncoding`. -/
inductive UiAccountEncoding where
  | base58
  | base64
  | base64Zstd
  | jsonParsed
  | binary
deriving DecidableEq

/-- A minimal JSON value (serde_json), enough for the fields the source
reads from a parsed token account. -/
inductive Jsonish where
  | null
  | boolean (b : Bool)
  | num (n : Int)
  | str (s : String)
  | arr (xs : List Jsonish)
  | obj (fields : List (String × Jsonish))

/-- `serde_json::Value::get(key)`: field lookup on an object, `None` on
anything else. -/
def jsonGet (j : Jsonish) (key : String) : Option Jsonish :=
  match j with
  | Jsonish.obj fields =>
    match fields.find? (fun f => f.1 = key) with
    | some f => some f.2
    | none => none
  | _ => none

/-- `serde_json::Value::as_str()`. -/
def jsonAsStr (j : Jsonish) : Option String :=
  match j with
  | Jsonish.str s => some s
  | _ => none

/-- `ParsedAccount`: only its `parsed` JSON payload is consumed. -/
structure ParsedAccount where
  parsed : Jsonish

/-- `UiAccountData`: the three wire shapes of account data. -/
inductive UiAccountData where
  | legacyBinary (data : String)
  | json (parsed_account : ParsedAccount)
  | binary (data : String) (encoding : UiAccountEncoding)

/-- One keyed account as returned by `get_token_accounts_by_owner`. -/
structure RawKeyedAccount where
  pubkey : String
  data : UiAccountData

/-- External library decoders called by `get_token_accounts`: the base64
crate's STANDARD engine, and `spl_token::state::Account::unpack` (of which
only the mint and amount fields are consumed). -/
structure TokenCodec where
  base64Decode : String → Except String (List Nat)
  unpackTokenAccount : List Nat → Except String (Pubkey × Nat)

/-- The per-account body of the loop in `get_token_accounts` (ledger.rs
lines 173-265): `some (mint, amount)` exactly on the paths where the source
inserts into the balance map, `none` on every `continue` / log-and-skip
path (unsupported encoding tag, base64 or base58 decode failure, unpack
failure, absent `info` / `mint` / `tokenAmount` / `amount` JSON fields, or
mint / amount parse failure). -/
def decodeTokenAccount (codec : TokenCodec) (acc : RawKeyedAccount) :
    Option (Pubkey × Nat) :=
  match acc.data with
  | UiAccountData.binary data encoding =>
    let decoded : Option (List Nat) :=
      match encoding with
      | UiAccountEncoding.base64 =>
        match codec.base64Decode data with
        | Except.ok d => some d
        | Except.error _ => none
      | UiAccountEncoding.base58 =>
        match base58Decode data with
        | some d => some d
        | none => none
      | _ => none
    match decoded with
    | none => none
    | some d =>
      match codec.unpackTokenAccount d with
      | Except.ok (m, a) => some (m, a)
      | Except.error _ => none
  | UiAccountData.json parsed_account =>
    match jsonGet parsed_account.parsed "info" with
    | none => none
    | some info =>
      match (jsonGet info "mint").bind jsonAsStr, jsonGet info "tokenAmount" with
      | some mintStr, some tokenAmount =>
        match (jsonGet tokenAmount "amount").bind jsonAsStr with
        | some amountStr =>
          match parsePubkey mintStr, parseU64 amountStr with
          | some m, some a => some (m, a)
          | _, _ => none
        | none => none
      | _, _ => none
  | UiAccountData.legacyBinary _ => none

/-- `HashMap::insert` on the association-list model of the balance map:
overwrite in place when the mint is already present, append otherwise. -/
def hmInsert (m : List (Pubkey × Nat)) (k : Pubkey) (v : Nat) :
    List (Pubkey × Nat) :=
  if m.any (fun p => p.1 = k) then
    m.map (fun p => if p.1 = k then (k, v) else p)
  else m ++ [(k, v)]

/-- The aggregation loop of `get_token_accounts`: fold the raw accounts,
inserting each successfully decoded (mint, amount) pair and skipping every
decode failure. -/
def aggregateTokenBalances (codec : TokenCodec)
    (accounts : List RawKeyedAccount) : List (Pubkey × Nat) :=
  accounts.foldl
    (fun balances acc =>
      match decodeTokenAccount codec acc with
      | some (m, a) => hmInsert balances m a
      | none => balances)
    []

/-- The query-layer call consumed by `get_token_accounts`. -/
structure OwnerEnv where
  getTokenAccountsByOwner : Pubkey → Except String (List RawKeyedAccount)

/-- `get_token_accounts` (ledger.rs): fetch all token-program accounts of
the owner (a fetch failure aborts with `?`), then aggregate. -/
def get_token_accounts (codec : TokenCodec) (env : OwnerEnv)
    (owner : Pubkey) : Except String (List (Pubkey × Nat)) :=
  match env.getTokenAccountsByOwner owner with
  | Except.error e => Except.error e
  | Except.ok accounts => Except.ok (aggregateTokenBalances codec accounts)

/-- `get_owned_assets` (ledger.rs): the holdings of `get_token_accounts`
restricted to strictly positive balances, in iteration order. -/
def get_owned_assets (codec : TokenCodec) (env : OwnerEnv)
    (owner : Pubkey) : Except String (List (Pubkey × Nat)) :=
  match get_token_accounts codec env owner with
  | Except.error e => Except.error e
  | Except.ok holdings =>
    Except.ok (holdings.foldl
      (fun assets p => if p.2 > 0 then assets ++ [p] else assets) [])

/-- First creator of a metadata account; only the address is consumed. -/
structure Creator where
  address : Pubkey
deriving DecidableEq

/-- The deserialized mpl `Metadata` account, restricted to the fields the
source reads (`name` and `creators`). -/
structure Metadata where
  name : String
  creators : Option (List Creator)

/-- External mpl-token-metadata operations: the deterministic PDA
derivation `Metadata::find_pda` and the deserializer
`Metadata::from_bytes`. -/
structure MetadataLib where
  find_pda : Pubkey → Pubkey
  from_bytes : List Nat → Except String Metadata

/-- The query-layer call consumed by `get_asset_info`. -/
structure AccountEnv where
  getAccountData : Pubkey → Except String (List Nat)

/-- `str::trim_matches('\0')`: strip NUL padding from both ends. -/
def trimNullChars (s : String) : String :=
  let nullc := Char.ofNat 0
  String.mk
    (((s.toList.dropWhile (fun c => c = nullc)).reverse.dropWhile
      (fun c => c = nullc)).reverse)

/-- The repository's `AssetMetadata` (lib.rs). -/
structure AssetMetadata where
  name : String
  description : String
  value : Nat
  issuer : Pubkey
  asset_type : String
  created_at : Nat
  token_mint : Option Pubkey

def assetDescriptionPlaceholder : String := "Asset tokenized on Finternet"

def assetTypePlaceholder : String := "tokenized_asset"

/-- `get_asset_info` (asset.rs lines 157-185): fetch the metadata account
at the PDA for the mint (`?` on failure), deserialize it (`?` on failure),
extract the trimmed name and the first creator as issuer, and fill the
remaining fields with documented placeholders. -/
def get_asset_info (lib : MetadataLib) (env : AccountEnv)
    (token_mint : Pubkey) : Except String AssetMetadata :=
  match env.getAccountData (lib.find_pda token_mint) with
  | Except.error e => Except.error e
  | Except.ok bytes =>
    match lib.from_bytes bytes with
    | Except.error e => Except.error e
    | Except.ok metadata =>
      let issuer := ((metadata.creators.bind
        (fun creators => creators.head?.map (fun c => c.address)))).getD
          pubkeyDefault
      Except.ok
        { name := trimNullChars metadata.name
          description := assetDescriptionPlaceholder
          value := 0
          issuer := issuer
          asset_type := assetTypePlaceholder
          created_at := 0
          token_mint := some token_mint }

/-- The metadata resolution as consumed per mint by `discover_all_tokens`
(ledger.rs lines 395-404): the match that turns an `Ok` metadata into its
name and any error into `None`. -/
def resolveAssetName (lib : MetadataLib) (env : AccountEnv)
    (mint : Pubkey) : Option String :=
  match get_asset_info lib env mint with
  | Except.ok metadata => some metadata.name
  | Except.error _ => none

/-- `discover_all_tokens` (ledger.rs): aggregate holdings, then for every
positive balance attach the best-effort metadata name. -/
def discover_all_tokens (codec : TokenCodec) (oenv : OwnerEnv)
    (lib : MetadataLib) (aenv : AccountEnv) (wallet : Pubkey) :
    Except String (List (Pubkey × Nat × Option String)) :=
  match get_token_accounts codec oenv wallet with
  | Except.error e => Except.error e
  | Except.ok holdings =>
    Except.ok (holdings.foldl
      (fun discovered p =>
        if p.2 > 0 then
          discovered ++ [(p.1, p.2, resolveAssetName lib aenv p.1)]
        else discovered)
      [])

/-- The RPC token-balance response: only its base-unit `amount` string is
consumed by `get_token_balance`. -/
structure BalanceResp where
  amount : String

/-- The query-layer call consumed by `get_token_balance`. -/
structure BalanceEnv where
  getTokenAccountBalance : Pubkey → Except String BalanceResp

/-- `get_token_balance` (payment.rs lines 126-156): derive the associated
token account (the external pure derivation `ata`), query its balance, and
return `Ok(parsed amount, defaulting to 0 on a parse failure)` on success
and `Ok(0)` on any query failure. -/
def get_token_balance (ata : Pubkey → Pubkey → Pubkey) (env : BalanceEnv)
    (wallet_pubkey token_mint : Pubkey) : Except String Nat :=
  match env.getTokenAccountBalance (ata wallet_pubkey token_mint) with
  | Except.ok balance => Except.ok ((parseU64 balance.amount).getD 0)
  | Except.error _ => Except.ok 0

/-! ### Concrete values used to instantiate the environment in witnesses
and counterexamples -/

/-- The all-zero 32-byte key (base58 text: 32 ones). -/
def pk1 : Pubkey := ⟨List.replicate 32 0⟩

/-- A second concrete key. -/
def pk2 : Pubkey := ⟨List.replicate 31 0 ++ [1]⟩

/-- A concrete owner key. -/
def pkOwner : Pubkey := ⟨List.replicate 31 0 ++ [2]⟩

/-- A valid mint string (decodes to `pk1`). -/
def mintM : String := "11111111111111111111111111111111"

/-- A valid signature string: 64 ones, decoding to 64 zero bytes. -/
def sig64Str : String :=
  "1111111111111111111111111111111111111111111111111111111111111111"

/-- The decoded form of `sig64Str`. -/
def sig0 : Signature := ⟨List.replicate 64 0⟩

/-- A generic transport error carried by concrete environments. -/
def emsg : String := "rpc failure"

/-- Placeholder payload strings for concrete raw accounts. -/
def dataA : String := "a"

def dataB : String := "2"

/-- Concrete codec: base64 always decodes to `[]`; unpack maps the empty
payload to `(pk1, 5)` and anything else to `(pk2, 0)`. -/
def c7Codec : TokenCodec :=
  ⟨fun _ => Except.ok [],
   fun d => if d.length = 0 then Except.ok (pk1, 5) else Except.ok (pk2, 0)⟩

/-- Two raw binary accounts decoding to `(pk1, 5)` and `(pk2, 0)` under
`c7Codec`. -/
def c7Accounts : List RawKeyedAccount :=
  [⟨dataA, UiAccountData.binary dataA UiAccountEncoding.base64⟩,
   ⟨dataB, UiAccountData.binary dataB UiAccountEncoding.base58⟩]

def c7Env : OwnerEnv := ⟨fun _ => Except.ok c7Accounts⟩

/-- Concrete balance environment whose query always fails. -/
def c10Env : BalanceEnv := ⟨fun _ => Except.error emsg⟩

/-- A concrete transaction whose snapshots record a change of mint `mintM`
at account index 0 from 100 to 60 base units. -/
def txChange : EncodedTx :=
  ⟨some ⟨some [⟨0, mintM, ⟨"100"⟩⟩], some [⟨0, mintM, ⟨"60"⟩⟩]⟩, none, []⟩

/-- The record the history scan reconstructs from `txChange` for owner
`pkOwner`. -/
def recM : TransactionRecord := ⟨sig0, pkOwner, pkOwner, 40, pk1, 0, none⟩

/-- Concrete RPC environment: five well-formed signatures, every
transaction fetch returning `txChange`. -/
def c5Env : RpcEnv :=
  ⟨fun _ _ => Except.ok (List.replicate 5 ⟨sig64Str, some 0⟩),
   fun _ => Except.ok txChange⟩

/-- A concrete transaction whose snapshots are identical. -/
def txSame : EncodedTx :=
  ⟨some ⟨some [⟨0, mintM, ⟨"100"⟩⟩], some [⟨0, mintM, ⟨"100"⟩⟩]⟩, none, []⟩

/-- An unchanged snapshot pair at account index 0. -/
def pairU : TokenBalance × TokenBalance :=
  (⟨0, mintM, ⟨"100"⟩⟩, ⟨0, mintM, ⟨"100"⟩⟩)

/-- A changing pair at account index 1 (100 to 60). -/
def preP : TokenBalance := ⟨1, mintM, ⟨"100"⟩⟩

def postQ : TokenBalance := ⟨1, mintM, ⟨"60"⟩⟩

/-- A second, independent changing pair at account index 2 (5 to 9). -/
def pairC2 : TokenBalance × TokenBalance :=
  (⟨2, mintM, ⟨"5"⟩⟩, ⟨2, mintM, ⟨"9"⟩⟩)

/-- A signature string the `FromStr` parse rejects (the character 0 is not
in the base58 alphabet). -/
def badSigStr : String := "0"

/-- Concrete RPC environment whose signature list contains one malformed
signature string. -/
def c1Env : RpcEnv :=
  ⟨fun _ _ => Except.ok [⟨badSigStr, none⟩], fun _ => Except.error emsg⟩

/-- Concrete RPC environment whose single transaction fetch fails. -/
def c1FetchFailEnv : RpcEnv :=
  ⟨fun _ _ => Except.ok [⟨sig64Str, none⟩], fun _ => Except.error emsg⟩

/-- A transaction with a balance change whose mint string is unparseable. -/
def txBadMint : EncodedTx :=
  ⟨some ⟨some [⟨0, badSigStr, ⟨"100"⟩⟩], some [⟨0, badSigStr, ⟨"60"⟩⟩]⟩,
   none, []⟩

/-- Concrete RPC environment delivering `txBadMint`. -/
def c1BadMintEnv : RpcEnv :=
  ⟨fun _ _ => Except.ok [⟨sig64Str, none⟩], fun _ => Except.ok txBadMint⟩

/-- The first concrete raw account of `c7Accounts`. -/
def accA : RawKeyedAccount :=
  ⟨dataA, UiAccountData.binary dataA UiAccountEncoding.base64⟩

/-- The second concrete raw account of `c7Accounts`. -/
def accB : RawKeyedAccount :=
  ⟨dataB, UiAccountData.binary dataB UiAccountEncoding.base58⟩

/-- A raw account with an unsupported encoding tag. -/
def accBad : RawKeyedAccount :=
  ⟨dataA, UiAccountData.binary dataA UiAccountEncoding.base64Zstd⟩

/-- Concrete metadata library whose deserializer always fails. -/
def c2Lib : MetadataLib := ⟨fun p => p, fun _ => Except.error emsg⟩

/-- Concrete account environment whose lookups always fail. -/
def c2AEnv : AccountEnv := ⟨fun _ => Except.error emsg⟩

/-- The memo program id used by the repository (ledger.rs and
payment.rs). -/
def memoProgramId : String := "MemoSq4gqABAXKb96qnH8TysNcWxMyWCqXgDLGmfcHr"

/-- UTF-8 payload of a concrete memo instruction (the text `memoText`). -/
def memoBytes : List Nat := [104, 105]

def memoText : String := "hi"

/-- Modelled from the spec: the presence test for a memo-program
instruction in a fetched transaction ("attempt to find a memo-program
instruction in the transaction"); the source's extraction stub never
performs this search. -/
def hasMemoInstruction (tx : EncodedTx) : Bool :=
  tx.instructions.any (fun ix => ix.program_id = memoProgramId)

/-- A transaction with a balance change and a memo-program instruction
carrying the payload `memoBytes`. -/
def c9Tx : EncodedTx :=
  ⟨some ⟨some [⟨0, mintM, ⟨"100"⟩⟩], some [⟨0, mintM, ⟨"60"⟩⟩]⟩,
   some 0, [⟨memoProgramId, memoBytes⟩]⟩

/-- Concrete RPC environment delivering `c9Tx` for one signature. -/
def c9Env : RpcEnv :=
  ⟨fun _ _ => Except.ok [⟨sig64Str, some 0⟩], fun _ => Except.ok c9Tx⟩

/-- Concrete associated-token-address derivation. -/
def ataZero : Pubkey → Pubkey → Pubkey := fun _ _ => pk1

/-! ### Helper lemmas -/

lemma foldl_filter_positive (l acc : List (Pubkey × Nat)) :
    l.foldl (fun assets p => if p.2 > 0 then assets ++ [p] else assets) acc
      = acc ++ l.filter (fun p => decide (0 < p.2)) := by
  induction l generalizing acc with
  | nil => simp
  | cons hd tl ih =>
    by_cases h0 : 0 < hd.2 <;>
      simp [List.foldl_cons, List.filter_cons, h0, ih]

lemma processTransaction_fields (owner : Pubkey) (sig : Signature)
    (si : SigInfo) (tx : EncodedTx) (r : TransactionRecord)
    (h : processTransaction owner sig si tx = Except.ok (some r)) :
    r.from_addr = owner ∧ r.to_addr = owner ∧ r.memo = none ∧
      r.signature = sig := by
  unfold processTransaction at h
  split at h
  · simp at h
  · split at h
    · split at h
      · simp at h
      · simp at h
      · simp only [Except.ok.injEq, Option.some.injEq] at h
        subst h
        exact ⟨rfl, rfl, rfl, rfl⟩
    · simp at h

lemma historyLoop_mem_fields (env : RpcEnv) (owner : Pubkey) :
    ∀ (l : List SigInfo) (rs : List TransactionRecord),
      historyLoop env owner l = Except.ok rs →
      ∀ r ∈ rs, r.from_addr = owner ∧ r.to_addr = owner ∧ r.memo = none := by
  intro l
  induction l with
  | nil =>
    intro rs h r hr
    simp only [historyLoop, Except.ok.injEq] at h
    subst h
    simp at hr
  | cons si rest ih =>
    intro rs h r hr
    rw [historyLoop] at h
    split at h
    · simp at h
    · rename_i sig hps
      split at h
      · exact ih rs h r hr
      · rename_i tx hgt
        split at h
        · simp at h
        · exact ih rs h r hr
        · rename_i r0 hpt
          split at h
          · simp at h
          · rename_i rs0 hrest
            simp only [Except.ok.injEq] at h
            subst h
            rcases List.mem_cons.mp hr with rfl | hmem
            · obtain ⟨h1, h2, h3, _⟩ :=
                processTransaction_fields owner sig si tx r hpt
              exact ⟨h1, h2, h3⟩
            · exact ih rs0 hrest r hmem

lemma historyLoop_length (env : RpcEnv) (owner : Pubkey) :
    ∀ (l : List SigInfo) (rs : List TransactionRecord),
      historyLoop env owner l = Except.ok rs → rs.length ≤ l.length := by
  intro l
  induction l with
  | nil =>
    intro rs h
    simp only [historyLoop, Except.ok.injEq] at h
    subst h
    simp
  | cons si rest ih =>
    intro rs h
    rw [historyLoop] at h
    split at h
    · simp at h
    · split at h
      · exact (ih rs h).trans (Nat.le_succ _)
      · split at h
        · simp at h
        · exact (ih rs h).trans (Nat.le_succ _)
        · split at h
          · simp at h
          · rename_i rs0 hrest
            simp only [Except.ok.injEq] at h
            subst h
            simpa using Nat.succ_le_succ (ih rs0 hrest)

lemma natDiff_cast_abs (x y : Nat) :
    ((if y > x then y - x else x - y : Nat) : Int)
      = |(y : Int) - (x : Int)| := by
  rcases le_or_lt y x with h | h
  · rw [if_neg (by omega), abs_of_nonpos (by omega)]
    omega
  · rw [if_pos h, abs_of_nonneg (by omega)]
    omega

lemma firstTransfer_sound :
    ∀ (pairs : List (TokenBalance × TokenBalance)) (m : Pubkey) (a : Nat),
      firstTransfer pairs = Except.ok (some (m, a)) →
      ∃ pq ∈ pairs, pq.1.account_index = pq.2.account_index ∧
        parsedAmount pq.1 ≠ parsedAmount pq.2 ∧
        parsePubkey pq.1.mint = some m ∧
        (a : Int) = |(parsedAmount pq.2 : Int) - (parsedAmount pq.1 : Int)| := by
  intro pairs
  induction pairs with
  | nil => intro m a h; simp [firstTransfer] at h
  | cons pq rest ih =>
    intro m a h
    obtain ⟨p, q⟩ := pq
    simp only [firstTransfer] at h
    split at h
    · rename_i hidx
      split at h
      · rename_i hamt
        split at h
        · rename_i m' hmint
          simp only [Except.ok.injEq, Option.some.injEq, Prod.mk.injEq] at h
          obtain ⟨rfl, rfl⟩ := h
          exact ⟨(p, q), List.mem_cons_self _ _, hidx, hamt, hmint,
            natDiff_cast_abs (parsedAmount p) (parsedAmount q)⟩
        · simp at h
      · obtain ⟨pq', hmem, hrest⟩ := ih m a h
        exact ⟨pq', List.mem_cons_of_mem _ hmem, hrest⟩
    · obtain ⟨pq', hmem, hrest⟩ := ih m a h
      exact ⟨pq', List.mem_cons_of_mem _ hmem, hrest⟩

lemma firstTransfer_none_of_unchanged :
    ∀ pairs : List (TokenBalance × TokenBalance),
      (∀ pq ∈ pairs, pq.1.account_index = pq.2.account_index →
        parsedAmount pq.1 = parsedAmount pq.2) →
      firstTransfer pairs = Except.ok none := by
  intro pairs
  induction pairs with
  | nil => intro _; rfl
  | cons pq rest ih =>
    intro hall
    obtain ⟨p, q⟩ := pq
    simp only [firstTransfer]
    by_cases hidx : p.account_index = q.account_index
    · rw [if_pos hidx,
        if_neg (not_not_intro (hall (p, q) (List.mem_cons_self _ _) hidx))]
      exact ih fun pq hm => hall pq (List.mem_cons_of_mem _ hm)
    · rw [if_neg hidx]
      exact ih fun pq hm => hall pq (List.mem_cons_of_mem _ hm)

lemma firstTransfer_skip (p q : TokenBalance)
    (rest : List (TokenBalance × TokenBalance))
    (h : p.account_index = q.account_index →
      parsedAmount p = parsedAmount q) :
    firstTransfer ((p, q) :: rest) = firstTransfer rest := by
  simp only [firstTransfer]
  by_cases hidx : p.account_index = q.account_index
  · rw [if_pos hidx, if_neg (not_not_intro (h hidx))]
  · rw [if_neg hidx]

/-! ### Theorems -/

/-- C7: for every owner, `get_owned_assets` returns exactly the entries of
the holdings map produced by `get_token_accounts` whose amount is strictly
positive, and in particular never includes a mint with amount 0. -/
theorem owned_assets_positive_filter (codec : TokenCodec) (env : OwnerEnv)
    (owner : Pubkey) (holdings : List (Pubkey × Nat))
    (h : get_token_accounts codec env owner = Except.ok holdings) :
    get_owned_assets codec env owner
        = Except.ok (holdings.filter (fun p => decide (0 < p.2))) ∧
      ∀ m : Pubkey, (m, 0) ∉ holdings.filter (fun p => decide (0 < p.2)) := by
  constructor
  · unfold get_owned_assets
    rw [h]
    simp [foldl_filter_positive]
  · intro m hm
    rw [List.mem_filter] at hm
    simpa using hm.2

/-- Witness for C7 at a concrete codec and environment producing the
holdings map [(pk1, 5), (pk2, 0)]. -/
theorem owned_assets_positive_filter_witness :
    get_owned_assets c7Codec c7Env pkOwner
        = Except.ok (([(pk1, 5), (pk2, 0)] :
            List (Pubkey × Nat)).filter (fun p => decide (0 < p.2))) ∧
      ∀ m : Pubkey, (m, 0) ∉ (([(pk1, 5), (pk2, 0)] :
        List (Pubkey × Nat)).filter (fun p => decide (0 < p.2))) :=
  owned_assets_positive_filter c7Codec c7Env pkOwner [(pk1, 5), (pk2, 0)]
    (by rfl)

/-- C10: `get_token_balance` never propagates an error from the balance
lookup: it always returns `Ok`, returning 0 both when the query fails and
when the returned amount string does not parse as a u64. -/
theorem token_balance_never_errors (ata : Pubkey → Pubkey → Pubkey)
    (env : BalanceEnv) (wallet_pubkey token_mint : Pubkey) :
    (∃ n, get_token_balance ata env wallet_pubkey token_mint = Except.ok n) ∧
      (∀ e, env.getTokenAccountBalance (ata wallet_pubkey token_mint)
          = Except.error e →
        get_token_balance ata env wallet_pubkey token_mint = Except.ok 0) ∧
      (∀ balance,
        env.getTokenAccountBalance (ata wallet_pubkey token_mint)
            = Except.ok balance →
        parseU64 balance.amount = none →
        get_token_balance ata env wallet_pubkey token_mint = Except.ok 0) := by
  refine ⟨?_, ?_, ?_⟩
  · cases henv : env.getTokenAccountBalance (ata wallet_pubkey token_mint) with
    | error e => exact ⟨0, by simp [get_token_balance, henv]⟩
    | ok balance =>
      exact ⟨(parseU64 balance.amount).getD 0,
        by simp [get_token_balance, henv]⟩
  · intro e he
    simp [get_token_balance, he]
  · intro balance hb hp
    simp [get_token_balance, hb, hp]

/-- Witness for C10: with a balance query that fails, the call returns
`Ok 0`. -/
theorem token_balance_never_errors_witness :
    get_token_balance ataZero c10Env pkOwner pk1 = Except.ok 0 :=
  (token_balance_never_errors ataZero c10Env pkOwner pk1).2.1 emsg (by rfl)

set_option maxRecDepth 200000

/-- C5: for every address and limit the history scan returns at most
`limit` records (default 10 when no limit is supplied), whatever the
environment replies. -/
theorem history_scan_bounded_by_limit :
    (∀ (env : RpcEnv) (owner : Pubkey) (limit : Option Nat)
        (rs : List TransactionRecord),
      get_transaction_history env owner limit = Except.ok rs →
      rs.length ≤ limit.getD 10) ∧
    ∀ (env : RpcEnv) (owner : Pubkey),
      get_transaction_history env owner none
        = get_transaction_history env owner (some 10) := by
  constructor
  · intro env owner limit rs h
    simp only [get_transaction_history] at h
    split at h
    · simp at h
    · rename_i sigs hsigs
      calc rs.length ≤ (sigs.take (limit.getD 10)).length :=
            historyLoop_length env owner _ rs h
        _ ≤ limit.getD 10 := by simp [List.length_take]
  · intro env owner
    rfl

/-- Witness for C5 in an environment with five signatures that each yield a
record: limit 2 caps the result at 2 records. -/
theorem history_scan_bounded_witness :
    ([recM, recM] : List TransactionRecord).length
      ≤ (some 2 : Option Nat).getD 10 :=
  history_scan_bounded_by_limit.1 c5Env pkOwner (some 2) [recM, recM]
    (by rfl)

/-- C6: every record returned by the history scan carries the queried
address in both its `from` field and its `to` field. -/
theorem history_records_self_referential :
    ∀ (env : RpcEnv) (owner : Pubkey) (limit : Option Nat)
      (rs : List TransactionRecord),
      get_transaction_history env owner limit = Except.ok rs →
      ∀ r ∈ rs, r.from_addr = owner ∧ r.to_addr = owner := by
  intro env owner limit rs h r hr
  simp only [get_transaction_history] at h
  split at h
  · simp at h
  · obtain ⟨h1, h2, _⟩ := historyLoop_mem_fields env owner _ rs h r hr
    exact ⟨h1, h2⟩

/-- Witness for C6: the record reconstructed from `txChange` for owner
`pkOwner` is self-referential. -/
theorem history_records_self_referential_witness :
    recM.from_addr = pkOwner ∧ recM.to_addr = pkOwner :=
  history_records_self_referential c5Env pkOwner (some 1) [recM] (by rfl)
    recM (by simp)

/-- C3: the Transfer Reconstructor emits a record only for a paired
account-index whose parsed pre amount differs from its parsed post amount,
with amount equal to the absolute difference; if every paired index is
unchanged the result is empty, and the concrete 100-to-60 example yields
exactly one record with amount 40. -/
theorem transfer_reconstruction_diff :
    (∀ (pairs : List (TokenBalance × TokenBalance)) (m : Pubkey) (a : Nat),
      firstTransfer pairs = Except.ok (some (m, a)) →
      ∃ pq ∈ pairs, pq.1.account_index = pq.2.account_index ∧
        parsedAmount pq.1 ≠ parsedAmount pq.2 ∧
        parsePubkey pq.1.mint = some m ∧
        (a : Int) = |(parsedAmount pq.2 : Int) - (parsedAmount pq.1 : Int)|) ∧
    (∀ (owner : Pubkey) (sig : Signature) (si : SigInfo) (tx : EncodedTx)
        (pre post : List TokenBalance),
      tx.meta = some ⟨some pre, some post⟩ →
      (∀ pq ∈ pre.zip post, pq.1.account_index = pq.2.account_index →
        parsedAmount pq.1 = parsedAmount pq.2) →
      processTransaction owner sig si tx = Except.ok none) ∧
    (processTransaction pkOwner sig0 ⟨sig64Str, some 0⟩ txChange
        = Except.ok (some recM) ∧ recM.amount = 40) := by
  refine ⟨firstTransfer_sound, ?_, by rfl, rfl⟩
  intro owner sig si tx pre post hmeta hall
  unfold processTransaction
  rw [hmeta]
  simp only
  rw [firstTransfer_none_of_unchanged (pre.zip post) hall]

/-- Witness for C3: a transaction whose snapshots coincide produces no
record. -/
theorem transfer_reconstruction_diff_witness :
    processTransaction pkOwner sig0 ⟨sig64Str, some 0⟩ txSame
      = Except.ok none :=
  transfer_reconstruction_diff.2.1 pkOwner sig0 ⟨sig64Str, some 0⟩ txSame
    [⟨0, mintM, ⟨"100"⟩⟩] [⟨0, mintM, ⟨"100"⟩⟩] (by rfl) (by decide)

/-- C4: the Transfer Reconstructor stops at the first balance-changing
pair — the result over any list extending that pair equals the result over
that pair alone, so later independent transfers never surface — and each
transaction contributes at most one record. -/
theorem transfer_reconstruction_first_only :
    (∀ (front : List (TokenBalance × TokenBalance)) (p q : TokenBalance)
        (rest : List (TokenBalance × TokenBalance)),
      (∀ pq ∈ front, pq.1.account_index = pq.2.account_index →
        parsedAmount pq.1 = parsedAmount pq.2) →
      p.account_index = q.account_index →
      parsedAmount p ≠ parsedAmount q →
      firstTransfer (front ++ (p, q) :: rest) = firstTransfer [(p, q)]) ∧
    (∀ (owner : Pubkey) (sig : Signature) (si : SigInfo) (tx : EncodedTx)
        (res : Option TransactionRecord),
      processTransaction owner sig si tx = Except.ok res →
      res.toList.length ≤ 1) := by
  constructor
  · intro front p q rest hfront hidx hamt
    induction front with
    | nil =>
      simp only [List.nil_append, firstTransfer]
      rw [if_pos hidx, if_pos hamt, if_pos hidx, if_pos hamt]
    | cons pq front ih =>
      rw [List.cons_append,
        firstTransfer_skip pq.1 pq.2 (front ++ (p, q) :: rest)
          (hfront pq (List.mem_cons_self _ _))]
      exact ih fun x hm => hfront x (List.mem_cons_of_mem _ hm)
  · intro owner sig si tx res h
    cases res with
    | none => simp
    | some r => simp

/-- Witness for C4: with an unchanged pair in front and a second changing
pair behind, the result equals the one computed from the first changing
pair alone. -/
theorem transfer_reconstruction_first_only_witness :
    firstTransfer ([pairU] ++ (preP, postQ) :: [pairC2])
      = firstTransfer [(preP, postQ)] :=
  transfer_reconstruction_first_only.1 [pairU] preP postQ [pairC2]
    (by decide) (by decide) (by decide)

/-- C8: a raw account whose encoding tag is unsupported, or whose payload
fails base64 decoding or fixed-layout unpacking, or whose structured JSON
lacks the required fields, decodes to nothing; and the aggregation over a
list containing such an account equals the aggregation with it removed, so
sibling accounts are still decoded and inserted and nothing is raised. -/
theorem decode_failure_skips_account :
    (∀ (codec : TokenCodec) (front back : List RawKeyedAccount)
        (bad : RawKeyedAccount),
      decodeTokenAccount codec bad = none →
      aggregateTokenBalances codec (front ++ bad :: back)
        = aggregateTokenBalances codec (front ++ back)) ∧
    (∀ (codec : TokenCodec) (k d : String),
      decodeTokenAccount codec
          ⟨k, UiAccountData.binary d UiAccountEncoding.base64Zstd⟩ = none) ∧
    (∀ (codec : TokenCodec) (k d e : String),
      codec.base64Decode d = Except.error e →
      decodeTokenAccount codec
        ⟨k, UiAccountData.binary d UiAccountEncoding.base64⟩ = none) ∧
    (∀ (codec : TokenCodec) (k d : String) (bytes : List Nat) (e : String),
      codec.base64Decode d = Except.ok bytes →
      codec.unpackTokenAccount bytes = Except.error e →
      decodeTokenAccount codec
        ⟨k, UiAccountData.binary d UiAccountEncoding.base64⟩ = none) ∧
    (∀ (codec : TokenCodec) (k : String) (j : Jsonish),
      jsonGet j "info" = none →
      decodeTokenAccount codec ⟨k, UiAccountData.json ⟨j⟩⟩ = none) := by
  refine ⟨?_, ?_, ?_, ?_, ?_⟩
  · intro codec front back bad h
    unfold aggregateTokenBalances
    rw [List.foldl_append, List.foldl_append, List.foldl_cons]
    simp [h]
  · intro codec k d
    rfl
  · intro codec k d e h
    simp [decodeTokenAccount, h]
  · intro codec k d bytes e h1 h2
    simp [decodeTokenAccount, h1, h2]
  · intro codec k j h
    simp [decodeTokenAccount, h]

/-- Witness for C8: inserting an unsupported-encoding account between the
two decodable accounts leaves the aggregated holdings unchanged. -/
theorem decode_failure_skips_account_witness :
    aggregateTokenBalances c7Codec ([accA] ++ accBad :: [accB])
      = aggregateTokenBalances c7Codec ([accA] ++ [accB]) :=
  decode_failure_skips_account.1 c7Codec [accA] [accB] accBad (by rfl)

/-- C2: the metadata resolution consumed per mint yields `None` when the
metadata account lookup fails or its bytes fail to deserialize, and more
generally whenever `get_asset_info` returns any error; consequently a
metadata failure never propagates out of `discover_all_tokens` once the
holdings fetch has succeeded. -/
theorem resolve_metadata_absence_yields_none :
    (∀ (lib : MetadataLib) (env : AccountEnv) (mint : Pubkey) (e : String),
      env.getAccountData (lib.find_pda mint) = Except.error e →
      resolveAssetName lib env mint = none) ∧
    (∀ (lib : MetadataLib) (env : AccountEnv) (mint : Pubkey)
        (bytes : List Nat) (e : String),
      env.getAccountData (lib.find_pda mint) = Except.ok bytes →
      lib.from_bytes bytes = Except.error e →
      resolveAssetName lib env mint = none) ∧
    (∀ (lib : MetadataLib) (env : AccountEnv) (mint : Pubkey) (e : String),
      get_asset_info lib env mint = Except.error e →
      resolveAssetName lib env mint = none) ∧
    (∀ (codec : TokenCodec) (oenv : OwnerEnv) (lib : MetadataLib)
        (aenv : AccountEnv) (wallet : Pubkey)
        (accounts : List RawKeyedAccount),
      oenv.getTokenAccountsByOwner wallet = Except.ok accounts →
      ∃ l, discover_all_tokens codec oenv lib aenv wallet = Except.ok l) := by
  refine ⟨?_, ?_, ?_, ?_⟩
  · intro lib env mint e h
    simp [resolveAssetName, get_asset_info, h]
  · intro lib env mint bytes e h1 h2
    simp [resolveAssetName, get_asset_info, h1, h2]
  · intro lib env mint e h
    simp [resolveAssetName, h]
  · intro codec oenv lib aenv wallet accounts h
    have hta : get_token_accounts codec oenv wallet
        = Except.ok (aggregateTokenBalances codec accounts) := by
      simp [get_token_accounts, h]
    unfold discover_all_tokens
    rw [hta]
    exact ⟨_, rfl⟩

/-- Witness for C2: with an account lookup that fails, the resolution
yields `None`. -/
theorem resolve_metadata_absence_yields_none_witness :
    resolveAssetName c2Lib c2AEnv pk1 = none :=
  resolve_metadata_absence_yields_none.1 c2Lib c2AEnv pk1 emsg (by rfl)

/-- Counterexample to C1 as stated: a signature list containing one
malformed signature string makes the whole history call return an error
instead of skipping that item. -/
theorem history_scan_aborts_on_malformed_signature :
    get_transaction_history c1Env pkOwner (some 5)
      = Except.error sigParseErr := by rfl

/-- C1 (amended): only a failed transaction fetch is tolerated locally —
the scan skips that signature and continues; a signature string the parse
rejects, or a per-transaction reconstruction error (an unparseable mint
string at the first balance-changing pair), aborts the whole call with an
error. -/
theorem history_scan_failure_locality :
    (∀ (env : RpcEnv) (owner : Pubkey) (si : SigInfo) (rest : List SigInfo)
        (sig : Signature) (e : String),
      parseSignature si.signature = some sig →
      env.getTransaction sig = Except.error e →
      historyLoop env owner (si :: rest) = historyLoop env owner rest) ∧
    (∀ (env : RpcEnv) (owner : Pubkey) (si : SigInfo) (rest : List SigInfo),
      parseSignature si.signature = none →
      historyLoop env owner (si :: rest) = Except.error sigParseErr) ∧
    (∀ (env : RpcEnv) (owner : Pubkey) (si : SigInfo) (rest : List SigInfo)
        (sig : Signature) (tx : EncodedTx) (e : String),
      parseSignature si.signature = some sig →
      env.getTransaction sig = Except.ok tx →
      processTransaction owner sig si tx = Except.error e →
      historyLoop env owner (si :: rest) = Except.error e) := by
  refine ⟨?_, ?_, ?_⟩
  · intro env owner si rest sig e hps hgt
    rw [historyLoop]
    simp only [hps, hgt]
  · intro env owner si rest hps
    rw [historyLoop]
    simp only [hps]
  · intro env owner si rest sig tx e hps hgt hpt
    rw [historyLoop]
    simp only [hps, hgt, hpt]

/-- Witness for C1 (amended): a concrete fetch failure is skipped, a
concrete malformed signature aborts, and a concrete unparseable mint
aborts. -/
theorem history_scan_failure_locality_witness :
    (historyLoop c1FetchFailEnv pkOwner [⟨sig64Str, none⟩]
        = historyLoop c1FetchFailEnv pkOwner []) ∧
    (historyLoop c1Env pkOwner [⟨badSigStr, none⟩]
        = Except.error sigParseErr) ∧
    (historyLoop c1BadMintEnv pkOwner [⟨sig64Str, none⟩]
        = Except.error mintParseErr) :=
  ⟨history_scan_failure_locality.1 c1FetchFailEnv pkOwner ⟨sig64Str, none⟩
      [] sig0 emsg (by rfl) (by rfl),
   history_scan_failure_locality.2.1 c1Env pkOwner ⟨badSigStr, none⟩ []
      (by rfl),
   history_scan_failure_locality.2.2 c1BadMintEnv pkOwner ⟨sig64Str, none⟩
      [] sig0 txBadMint mintParseErr (by rfl) (by rfl) (by rfl)⟩

/-- Counterexample to C9 as stated: a fetched transaction carrying a
memo-program instruction still produces a record whose memo field is
`None` — the payload is never extracted. -/
theorem memo_present_but_not_extracted :
    hasMemoInstruction c9Tx = true ∧
    get_transaction_history c9Env pkOwner (some 1) = Except.ok [recM] ∧
    recM.memo = none ∧
    extract_memo_from_transaction c9Tx ≠ some memoText := by
  refine ⟨rfl, by rfl, rfl, ?_⟩
  simp [extract_memo_from_transaction]

/-- C9 (amended): memo extraction never produces an error but is a stub
that always yields `None`, whether or not a memo-program instruction is
present; hence the memo field of every record returned by the history scan
is `None`. -/
theorem memo_extraction_always_none :
    (∀ tx : EncodedTx, extract_memo_from_transaction tx = none) ∧
    (∀ (env : RpcEnv) (owner : Pubkey) (limit : Option Nat)
        (rs : List TransactionRecord),
      get_transaction_history env owner limit = Except.ok rs →
      ∀ r ∈ rs, r.memo = none) := by
  constructor
  · intro tx
    rfl
  · intro env owner limit rs h r hr
    simp only [get_transaction_history] at h
    split at h
    · simp at h
    · exact (historyLoop_mem_fields env owner _ rs h r hr).2.2

/-- Witness for C9 (amended): the record reconstructed from the
memo-carrying transaction has memo `None`. -/
theorem memo_extraction_always_none_witness :
    recM.memo = none :=
  memo_extraction_always_none.2 c9Env pkOwner (some 1) [recM] (by rfl)
    recM (by simp)

end Finternet
